import Mathlib

namespace RealtimeSTT

/-! Shallow embedding of the text buffer used by the minimal STT editor
(src/websocket_minimal_editor.py). The buffer models the prompt_toolkit
Buffer operations the reconciler relies on: insert_text at the cursor,
delete of the character after the cursor, and cursor positioning. -/

structure TextBuffer where
  text : List Char
  cursor : Nat
deriving Repr, DecidableEq

def insertText (b : TextBuffer) (s : List Char) : TextBuffer :=
  { text := b.text.take b.cursor ++ s ++ b.text.drop b.cursor,
    cursor := b.cursor + s.length }

def deleteOne (b : TextBuffer) : TextBuffer :=
  if b.cursor < b.text.length then
    { b with text := b.text.take b.cursor ++ b.text.drop (b.cursor + 1) }
  else b

def deleteN (b : TextBuffer) : Nat → TextBuffer
  | 0 => b
  | n + 1 => deleteN (deleteOne b) n

def currentLineBeforeCursor (b : TextBuffer) : List Char :=
  ((b.text.take b.cursor).reverse.takeWhile (fun c => c ≠ '\n')).reverse

/-- Python whitespace predicate used by str.strip and str.lstrip (ASCII part). -/
def isPySpace (c : Char) : Bool :=
  c = ' ' || c = '\t' || c = '\n' || c = '\r' || c = Char.ofNat 11 || c = Char.ofNat 12

def pyLstrip (l : List Char) : List Char := l.dropWhile isPySpace

def pyStrip (l : List Char) : List Char :=
  ((l.dropWhile isPySpace).reverse.dropWhile isPySpace).reverse

/-! Reconciler state of MinimalSTTEditor: current_text holds the provisional
text, realtime_start_pos the recorded insertion offset. -/

structure EditorState where
  buffer : TextBuffer
  currentText : List Char
  realtimeStartPos : Option Nat
deriving Repr, DecidableEq

/-- The glue-space rule shared by add_realtime_text and
insert_text_at_cursor: prepend one space when the current line before the
cursor is nonempty and does not already end with a space. -/
def glueSpaced (b : TextBuffer) (text : List Char) : List Char :=
  let line := currentLineBeforeCursor b
  if line ≠ [] ∧ line.getLast? ≠ some ' ' then ' ' :: text else text

/-- MinimalSTTEditor.add_realtime_text. -/
def addRealtimeText (s : EditorState) (text : List Char) : EditorState :=
  if pyStrip text ≠ [] then
    let startPos := s.buffer.cursor
    { s with buffer := insertText s.buffer (glueSpaced s.buffer text),
             realtimeStartPos := some startPos }
  else s

/-- MinimalSTTEditor.remove_realtime_text. -/
def removeRealtimeText : EditorState → EditorState
  | ⟨b, ct, some start⟩ =>
    if ct ≠ [] then
      let charsToDelete : Int := (b.cursor : Int) - (start : Int)
      let b' := if 0 < charsToDelete then
          deleteN { b with cursor := start } charsToDelete.toNat
        else b
      ⟨b', ct, none⟩
    else ⟨b, ct, some start⟩
  | ⟨b, ct, none⟩ => ⟨b, ct, none⟩

/-- MinimalSTTEditor.on_realtime_text_received. -/
def onRealtimeTextReceived (s : EditorState) (text : List Char) : EditorState :=
  if text ≠ s.currentText then
    let s1 := removeRealtimeText s
    let s2 := { s1 with currentText := pyStrip text }
    if s2.currentText ≠ [] then addRealtimeText s2 s2.currentText else s2
  else s

/-- MinimalSTTEditor.insert_text_at_cursor. -/
def insertTextAtCursor (b : TextBuffer) (text : List Char) : TextBuffer :=
  insertText b (glueSpaced b text)

/-- MinimalSTTEditor.on_stt_text_received (clipboard side effect omitted). -/
def onSttTextReceived (s : EditorState) (text : List Char) (isFinal : Bool) : EditorState :=
  if isFinal ∧ pyStrip text ≠ [] then
    let s1 := removeRealtimeText s
    let s2 := { s1 with currentText := [] }
    { s2 with buffer := insertTextAtCursor s2.buffer text }
  else s

/-- The fullSentence branch of WebSocketSTTClient.message_handler: a final
sentence with non-blank text goes to on_stt_text_received, otherwise the
editor receives an empty realtime update. -/
def handleFullSentence (s : EditorState) (text : List Char) : EditorState :=
  if pyStrip text ≠ [] then onSttTextReceived s text true
  else onRealtimeTextReceived s []

/-- Modelled from the spec: the deletion step the spec prescribes for the
reconciler, namely delete exactly the length of the span text starting at
the recorded start offset, leaving every other character in place. Used
only to compare the code against the claim. -/
def specDeleteProvisional (b : TextBuffer) (start : Nat) (spanText : List Char) : List Char :=
  b.text.take start ++ b.text.drop (start + spanText.length)

/-! Wire framing (WebSocketSTTClient.send_audio_chunk builds
length-prefixed messages; STTServer.data_handler reads them back).
Bytes are modelled as natural numbers; the UTF-8 JSON serialization of
the metadata is the external json library, abstracted as a pair of
functions dumps and parse quantified in the theorems. -/

/-- struct.pack with the little-endian u32 format, as a list of four bytes. -/
def packU32LE (n : Nat) : List Nat :=
  [n % 256, n / 256 % 256, n / 256 ^ 2 % 256, n / 256 ^ 3 % 256]

/-- int.from_bytes with byteorder little, on a byte list of any length. -/
def intFromBytesLE (l : List Nat) : Nat :=
  l.foldr (fun b acc => b + 256 * acc) 0

/-- WebSocketSTTClient.send_audio_chunk message layout:
length prefix, then the metadata bytes, then the raw audio bytes. -/
def encodeWire (metadataBytes audio : List Nat) : List Nat :=
  packU32LE metadataBytes.length ++ metadataBytes ++ audio

/-- STTServer.data_handler parsing of a binary message: read the
4-byte little-endian length, parse that many following bytes with the
json layer, keep the remainder as audio. A parse failure models the
utf-8 or json exception escaping the handler. -/
def decodeWire {M : Type} (parse : List Nat → Option M) (message : List Nat) :
    Option (M × List Nat) :=
  match parse ((message.drop 4).take (intFromBytesLE (message.take 4))) with
  | some metadata => some (metadata, message.drop (4 + intFromBytesLE (message.take 4)))
  | none => none

/-! Client recording state machine (WebSocketSTTClient). Channels are
modelled as Option Bool: none is an absent connection object, some true
an open one, some false a closed one whose send raises. External calls
(pyaudio, websocket send) are modelled on their non-raising path; where
the source catches an exception the caught path is modelled explicitly. -/

inductive ControlCommand where
  | startRec
  | stopRec
  | pauseRec
  | resumeRec
deriving Repr, DecidableEq

structure ClientState where
  controlWs : Option Bool
  dataWs : Option Bool
  isConnected : Bool
  isRecording : Bool
  isPaused : Bool
  audioStream : Bool
  handlesAcquired : Nat
  sentControl : List ControlCommand
deriving Repr, DecidableEq

/-- WebSocketSTTClient.start_recording. When the control send raises
(absent or closed control channel), the except handler clears
is_recording but the freshly opened capture stream is kept. -/
def startRecording (s : ClientState) : ClientState :=
  if !s.isConnected then s
  else
    let s1 := { s with audioStream := true, handlesAcquired := s.handlesAcquired + 1,
                       isRecording := true }
    match s1.controlWs with
    | some true => { s1 with sentControl := s1.sentControl ++ [ControlCommand.startRec] }
    | _ => { s1 with isRecording := false }

/-- WebSocketSTTClient.stop_recording. -/
def stopRecording (s : ClientState) : ClientState :=
  if !s.isRecording then s
  else
    let s1 := { s with isRecording := false, audioStream := false }
    match s1.controlWs with
    | some true => { s1 with sentControl := s1.sentControl ++ [ControlCommand.stopRec] }
    | _ => s1

/-- WebSocketSTTClient.pause_recording. -/
def pauseRecording (s : ClientState) : ClientState :=
  if !s.isRecording || s.isPaused then s
  else
    let s1 := { s with isPaused := true }
    match s1.controlWs with
    | some true => { s1 with sentControl := s1.sentControl ++ [ControlCommand.pauseRec] }
    | _ => s1

/-- WebSocketSTTClient.resume_recording. -/
def resumeRecording (s : ClientState) : ClientState :=
  if !s.isRecording || !s.isPaused then s
  else
    let s1 := { s with isPaused := false }
    match s1.controlWs with
    | some true => { s1 with sentControl := s1.sentControl ++ [ControlCommand.resumeRec] }
    | _ => s1

/-- WebSocketSTTClient.connect. The two websockets.connect outcomes are
the booleans controlOk and dataOk; the returned flag is true when connect
returns normally and false when the except branch re-raises. -/
def connect (controlOk dataOk : Bool) (s : ClientState) : Bool × ClientState :=
  if controlOk then
    let s1 := { s with controlWs := some true }
    if dataOk then
      let s2 := { s1 with dataWs := some true, isConnected := true }
      (true, startRecording s2)
    else
      (false, { s1 with isConnected := false })
  else
    (false, { s with isConnected := false })

/-- Observable outcome of one send_audio_chunk call: whether an exception
reached the caller, and whether a frame went out on the data channel. -/
structure SendOutcome where
  raised : Bool
  delivered : Bool
deriving Repr, DecidableEq

/-- WebSocketSTTClient.send_audio_chunk: an absent data channel returns
early; a send on a closed channel raises inside the try and the bare
except swallows it. -/
def sendAudioChunk (s : ClientState) : SendOutcome :=
  match s.dataWs with
  | none => ⟨false, false⟩
  | some isOpen => if isOpen then ⟨false, true⟩ else ⟨false, false⟩

/-! Batch transcription retry wrapper (ParakeetClient.transcribe_with_retry).
The underlying ParakeetClient.transcribe call is a network operation,
modelled as an oracle giving the result dict of the k-th call; success
mirrors the result dict field the wrapper inspects. -/

structure TranscribeResult where
  success : Bool
  text : List Char
  error : Option (List Char)
deriving Repr, DecidableEq

/-- The dict built by the all-retries-exhausted fallback branch. -/
def allRetriesFailed : TranscribeResult :=
  ⟨false, [], some "All retries failed".toList⟩

/-- The loop of transcribe_with_retry, from the given attempt index with
the given remaining iteration count and last failed result. Returns the
returned result, the number of transcribe calls made and the number of
time.sleep(1) delays taken. -/
def retryAux (oracle : Nat → TranscribeResult) (attempt : Nat) :
    Nat → Option TranscribeResult → TranscribeResult × Nat × Nat
  | 0, last => (last.getD allRetriesFailed, 0, 0)
  | r + 1, _ =>
    let res := oracle attempt
    if res.success then (res, 1, 0)
    else
      let rest := retryAux oracle (attempt + 1) r (some res)
      (rest.1, rest.2.1 + 1, rest.2.2 + if 0 < r then 1 else 0)

/-- ParakeetClient.transcribe_with_retry with budget maxRetries: the loop
runs over attempts 0 .. maxRetries. -/
def transcribeWithRetry (oracle : Nat → TranscribeResult) (maxRetries : Nat) :
    TranscribeResult × Nat × Nat :=
  retryAux oracle 0 (maxRetries + 1) none

/-! Server-side final text pipeline (STTServer.preprocess_text and
STTServer.process_final_text). -/

/-- STTServer.preprocess_text. -/
def preprocessText (text : List Char) : List Char :=
  let t1 := pyLstrip text
  let t2 := if t1.take 3 = ['.', '.', '.'] then t1.drop 3 else t1
  let t3 := pyLstrip t2
  match t3 with
  | [] => t3
  | c :: rest => c.toUpper :: rest

/-- STTServer.process_final_text: preprocess, drop blank results, enqueue
the fullSentence text for broadcast otherwise. -/
def processFinalText (text : List Char) : Option (List Char) :=
  let t := preprocessText text
  if pyStrip t = [] then none else some t

/-! Concrete instances used to evaluate the theorems. -/

/-- A trivial instance of the json-layer contract: a value n is dumped as
n repeated bytes and parsed back as the length. -/
def natDumps (n : Nat) : List Nat := List.replicate n 7

/-- Parser matching natDumps. -/
def natParse (l : List Nat) : Option Nat := some l.length

/-- A json layer on the concrete two-byte document used in the truncation
instances: it accepts exactly the byte sequence of an empty object and
rejects everything else, as json.loads does on that input and on its
strict truncations. -/
def stubJsonParse (l : List Nat) : Option Nat :=
  if l = [123, 125] then some 42 else none

/-- Fresh client before connect. -/
def initialClient : ClientState := ⟨none, none, false, false, false, false, 0, []⟩

/-- A connected client in the Listening state. -/
def listeningClient : ClientState :=
  ⟨some true, some true, true, true, false, true, 1, [ControlCommand.startRec]⟩

/-- A connected client whose data channel has closed. -/
def closedDataClient : ClientState :=
  ⟨some true, some false, true, true, false, true, 1, [ControlCommand.startRec]⟩

/-! Helper lemmas. -/

theorem dropWhile_len_le (p : Char → Bool) (l : List Char) :
    (l.dropWhile p).length ≤ l.length := by
  induction l with
  | nil => simp
  | cons a l ih =>
    by_cases h : p a
    · simp only [List.dropWhile_cons, h, if_true, List.length_cons]
      omega
    · simp [List.dropWhile_cons, h]

theorem dropWhile_dropWhile (p : Char → Bool) (l : List Char) :
    (l.dropWhile p).dropWhile p = l.dropWhile p := by
  induction l with
  | nil => rfl
  | cons a l ih =>
    by_cases h : p a
    · simpa [List.dropWhile_cons, h] using ih
    · simp [List.dropWhile_cons, h]

theorem dropWhile_eq_self_append (p : Char → Bool) {l v w : List Char}
    (hl : l.dropWhile p = l) (hvw : v ++ w = l) : v.dropWhile p = v := by
  cases v with
  | nil => rfl
  | cons c v' =>
    have hlc : l = c :: (v' ++ w) := by rw [← hvw]; rfl
    have hc : p c = false := by
      by_contra hc
      rw [Bool.not_eq_false] at hc
      have h1 := dropWhile_len_le p (v' ++ w)
      rw [hlc] at hl
      simp only [List.dropWhile_cons, hc, if_true] at hl
      have h2 := congrArg List.length hl
      simp only [List.length_cons] at h2
      omega
    simp [List.dropWhile_cons, hc]

theorem pyStrip_idem (l : List Char) : pyStrip (pyStrip l) = pyStrip l := by
  have hsplit :
      ((l.dropWhile isPySpace).reverse.dropWhile isPySpace).reverse
        ++ ((l.dropWhile isPySpace).reverse.takeWhile isPySpace).reverse
        = l.dropWhile isPySpace := by
    rw [← List.reverse_append, List.takeWhile_append_dropWhile, List.reverse_reverse]
  have hv : (pyStrip l).dropWhile isPySpace = pyStrip l :=
    dropWhile_eq_self_append isPySpace (dropWhile_dropWhile isPySpace l) hsplit
  show (((pyStrip l).dropWhile isPySpace).reverse.dropWhile isPySpace).reverse = pyStrip l
  rw [hv]
  show (((l.dropWhile isPySpace).reverse.dropWhile isPySpace).reverse.reverse.dropWhile
      isPySpace).reverse = pyStrip l
  rw [List.reverse_reverse, dropWhile_dropWhile]
  rfl

theorem deleteN_insert (pre mid post : List Char) :
    deleteN ⟨pre ++ mid ++ post, pre.length⟩ mid.length = ⟨pre ++ post, pre.length⟩ := by
  induction mid with
  | nil => simp [deleteN]
  | cons c cs ih =>
    have hlen : pre.length < (pre ++ (c :: cs) ++ post).length := by
      simp [List.length_append]
    have htake : (pre ++ (c :: cs) ++ post).take pre.length = pre := by
      rw [List.append_assoc, List.take_left]
    have hdrop : (pre ++ (c :: cs) ++ post).drop (pre.length + 1) = cs ++ post := by
      rw [List.append_assoc, ← List.drop_drop, List.drop_left]
      rfl
    show deleteN (deleteOne ⟨pre ++ (c :: cs) ++ post, pre.length⟩) cs.length = _
    rw [deleteOne]
    simp only [hlen, if_true, htake, hdrop]
    rw [← List.append_assoc]
    exact ih

/-- The deletion loop of remove_realtime_text, when the live cursor sits at
or beyond the recorded start offset: the characters in the half-open range
from start to cursor are removed, everything else stays, the cursor lands
on start and the span is cleared. -/
theorem removeRealtime_ge (text : List Char) (start cursor : Nat) (ct : List Char)
    (hct : ct ≠ []) (hsc : start ≤ cursor) (hcl : cursor ≤ text.length) :
    removeRealtimeText ⟨⟨text, cursor⟩, ct, some start⟩
      = ⟨⟨text.take start ++ text.drop cursor, start⟩, ct, none⟩ := by
  rcases Nat.lt_or_ge start cursor with hlt | hge
  · have hpos : (0 : Int) < (cursor : Int) - (start : Int) := by omega
    have htn : ((cursor : Int) - (start : Int)).toNat = cursor - start := by omega
    show (if ct ≠ [] then _ else _) = _
    rw [if_pos hct]
    show (⟨if 0 < (cursor : Int) - (start : Int) then
        deleteN ⟨text, start⟩ ((cursor : Int) - (start : Int)).toNat else ⟨text, cursor⟩,
        ct, none⟩ : EditorState) = _
    rw [if_pos hpos, htn]
    have hpre : (text.take start).length = start := by
      rw [List.length_take]; omega
    have hmid : ((text.drop start).take (cursor - start)).length = cursor - start := by
      rw [List.length_take, List.length_drop]; omega
    have h1 : (text.drop start).drop (cursor - start) = text.drop cursor := by
      rw [List.drop_drop]; congr 1; omega
    have hsplit : text.take start ++ (text.drop start).take (cursor - start)
        ++ text.drop cursor = text := by
      rw [List.append_assoc, ← h1, List.take_append_drop, List.take_append_drop]
    have hdel := deleteN_insert (text.take start) ((text.drop start).take (cursor - start))
      (text.drop cursor)
    rw [hsplit, hpre, hmid] at hdel
    rw [hdel]
  · have heq : start = cursor := by omega
    subst heq
    have hneg : ¬ (0 : Int) < (start : Int) - (start : Int) := by omega
    show (if ct ≠ [] then _ else _) = _
    rw [if_pos hct]
    show (⟨if 0 < (start : Int) - (start : Int) then
        deleteN ⟨text, start⟩ ((start : Int) - (start : Int)).toNat else ⟨text, start⟩,
        ct, none⟩ : EditorState) = _
    rw [if_neg hneg, List.take_append_drop]

/-- The deletion loop of remove_realtime_text when the live cursor has
moved before the recorded start offset: the computed count is negative,
so nothing at all is deleted and only the span is cleared. -/
theorem removeRealtime_lt (text : List Char) (start cursor : Nat) (ct : List Char)
    (hct : ct ≠ []) (hsc : cursor < start) :
    removeRealtimeText ⟨⟨text, cursor⟩, ct, some start⟩ = ⟨⟨text, cursor⟩, ct, none⟩ := by
  have hneg : ¬ (0 : Int) < (cursor : Int) - (start : Int) := by omega
  show (if ct ≠ [] then _ else _) = _
  rw [if_pos hct]
  show (⟨if 0 < (cursor : Int) - (start : Int) then
      deleteN ⟨text, start⟩ ((cursor : Int) - (start : Int)).toNat else ⟨text, cursor⟩,
      ct, none⟩ : EditorState) = _
  rw [if_neg hneg]

/-- Removing the span right after an insertion at the cursor restores the
buffer exactly. -/
theorem removeRealtime_after_insert (b0 : TextBuffer) (ct ins : List Char)
    (hct : ct ≠ []) (hcl : b0.cursor ≤ b0.text.length) :
    removeRealtimeText ⟨insertText b0 ins, ct, some b0.cursor⟩
      = ⟨⟨b0.text, b0.cursor⟩, ct, none⟩ := by
  have hpre : (b0.text.take b0.cursor).length = b0.cursor := by
    rw [List.length_take]; omega
  have hcl' : b0.cursor + ins.length
      ≤ (b0.text.take b0.cursor ++ ins ++ b0.text.drop b0.cursor).length := by
    simp only [List.length_append, hpre]
    omega
  have h := removeRealtime_ge (b0.text.take b0.cursor ++ ins ++ b0.text.drop b0.cursor)
    b0.cursor (b0.cursor + ins.length) ct hct (Nat.le_add_right _ _) hcl'
  have htake : (b0.text.take b0.cursor ++ ins ++ b0.text.drop b0.cursor).take b0.cursor
      = b0.text.take b0.cursor := by
    have h2 := List.take_left (b0.text.take b0.cursor) (ins ++ b0.text.drop b0.cursor)
    rw [hpre] at h2
    rw [List.append_assoc]
    exact h2
  have hdrop : (b0.text.take b0.cursor ++ ins ++ b0.text.drop b0.cursor).drop
      (b0.cursor + ins.length) = b0.text.drop b0.cursor := by
    have h2 := List.drop_left (b0.text.take b0.cursor ++ ins) (b0.text.drop b0.cursor)
    rw [List.length_append, hpre] at h2
    exact h2
  rw [htake, hdrop, List.take_append_drop] at h
  show removeRealtimeText ⟨⟨b0.text.take b0.cursor ++ ins ++ b0.text.drop b0.cursor,
      b0.cursor + ins.length⟩, ct, some b0.cursor⟩ = _
  exact h

/-- A first realtime update on a span-free editor inserts the stripped
text (with the glue space rule) at the cursor and records the span. -/
theorem onRealtime_fresh (b0 : TextBuffer) (t : List Char) (ht : pyStrip t ≠ []) :
    onRealtimeTextReceived ⟨b0, [], none⟩ t
      = ⟨insertText b0 (glueSpaced b0 (pyStrip t)), pyStrip t, some b0.cursor⟩ := by
  have htne : t ≠ [] := by
    intro h
    exact ht (by rw [h]; rfl)
  unfold onRealtimeTextReceived
  rw [if_pos (show t ≠ ([] : List Char) from htne)]
  show (if pyStrip t ≠ [] then addRealtimeText ⟨b0, pyStrip t, none⟩ (pyStrip t)
        else ⟨b0, pyStrip t, none⟩) = _
  rw [if_pos ht]
  unfold addRealtimeText
  rw [if_pos (show pyStrip (pyStrip t) ≠ [] by rw [pyStrip_idem]; exact ht)]

/-- The glue-spaced text of a nonempty text is nonempty. -/
theorem glueSpaced_ne_nil (b : TextBuffer) (text : List Char) (h : text ≠ []) :
    glueSpaced b text ≠ [] := by
  show (if currentLineBeforeCursor b ≠ [] ∧ (currentLineBeforeCursor b).getLast? ≠ some ' '
      then ' ' :: text else text) ≠ []
  split
  · simp
  · exact h

/-- Reading back the packed little-endian u32 recovers the value below 2^32. -/
theorem intFromBytes_pack (n : Nat) (h : n < 2 ^ 32) : intFromBytesLE (packU32LE n) = n := by
  simp only [intFromBytesLE, packU32LE, List.foldr]
  have e2 : (256 : Nat) ^ 2 = 65536 := by norm_num
  have e3 : (256 : Nat) ^ 3 = 16777216 := by norm_num
  have e32 : (2 : Nat) ^ 32 = 4294967296 := by norm_num
  rw [e2, e3]
  rw [e32] at h
  omega

theorem pack_take4 (v : Nat) (rest : List Nat) :
    (packU32LE v ++ rest).take 4 = packU32LE v := by
  have h2 := List.take_left (packU32LE v) rest
  rw [show (packU32LE v).length = 4 from rfl] at h2
  exact h2

theorem pack_drop4 (v : Nat) (rest : List Nat) :
    (packU32LE v ++ rest).drop 4 = rest := by
  have h2 := List.drop_left (packU32LE v) rest
  rw [show (packU32LE v).length = 4 from rfl] at h2
  exact h2

/-- The encoded message rewritten with the length header split off. -/
theorem encodeWire_eq (mb audio : List Nat) :
    encodeWire mb audio = packU32LE mb.length ++ (mb ++ audio) := by
  unfold encodeWire
  rw [List.append_assoc]

/-- Decoding a well-formed frame: the length header matches the metadata
bytes, so decoding applies the json layer to exactly those bytes and hands
back the rest verbatim. -/
theorem decodeWire_frame {M : Type} (parse : List Nat → Option M) (mb rest : List Nat)
    (hlen : mb.length < 2 ^ 32) :
    decodeWire parse (packU32LE mb.length ++ (mb ++ rest))
      = (parse mb).map (fun md => (md, rest)) := by
  unfold decodeWire
  rw [pack_take4, intFromBytes_pack _ hlen, pack_drop4, List.take_left]
  have hdropAll : (packU32LE mb.length ++ (mb ++ rest)).drop (4 + mb.length) = rest := by
    have h2 := List.drop_left (packU32LE mb.length ++ mb) rest
    rw [show (packU32LE mb.length ++ mb).length = 4 + mb.length by
      rw [List.length_append]; rfl] at h2
    rw [List.append_assoc] at h2
    exact h2
  rw [hdropAll]
  cases parse mb <;> rfl

theorem encode_take_tiny (mb audio : List Nat) (n : Nat) (hn : n < 4) :
    (encodeWire mb audio).take n = (packU32LE mb.length).take n := by
  rw [encodeWire_eq]
  exact List.take_append_of_le_length (by rw [show (packU32LE mb.length).length = 4 from rfl]; omega)

theorem encode_take_small (mb audio : List Nat) (n : Nat) (h4 : 4 ≤ n)
    (hn : n < 4 + mb.length) :
    (encodeWire mb audio).take n = packU32LE mb.length ++ mb.take (n - 4) := by
  rw [encodeWire_eq, List.take_append_eq_append_take]
  rw [List.take_of_length_le (show (packU32LE mb.length).length ≤ n by
    rw [show (packU32LE mb.length).length = 4 from rfl]; omega)]
  rw [show n - (packU32LE mb.length).length = n - 4 from rfl]
  rw [List.take_append_eq_append_take]
  rw [show n - 4 - mb.length = 0 from by omega, List.take_zero, List.append_nil]

theorem encode_take_large (mb audio : List Nat) (n : Nat) (hn : 4 + mb.length ≤ n) :
    (encodeWire mb audio).take n
      = packU32LE mb.length ++ (mb ++ audio.take (n - (4 + mb.length))) := by
  rw [encodeWire_eq, List.take_append_eq_append_take]
  rw [List.take_of_length_le (show (packU32LE mb.length).length ≤ n by
    rw [show (packU32LE mb.length).length = 4 from rfl]; omega)]
  rw [show n - (packU32LE mb.length).length = n - 4 from rfl]
  rw [List.take_append_eq_append_take]
  rw [List.take_of_length_le (show mb.length ≤ n - 4 by omega)]
  rw [show n - 4 - mb.length = n - (4 + mb.length) from by omega]

/-- One unfolding step of the retry loop when the attempt succeeds. -/
theorem retryAux_succ_pos (oracle : Nat → TranscribeResult) (attempt r : Nat)
    (last : Option TranscribeResult) (h : (oracle attempt).success = true) :
    retryAux oracle attempt (r + 1) last = (oracle attempt, 1, 0) := by
  simp [retryAux, h]

/-- One unfolding step of the retry loop when the attempt fails. -/
theorem retryAux_succ_neg (oracle : Nat → TranscribeResult) (attempt r : Nat)
    (last : Option TranscribeResult) (h : (oracle attempt).success = false) :
    retryAux oracle attempt (r + 1) last
      = ((retryAux oracle (attempt + 1) r (some (oracle attempt))).1,
         (retryAux oracle (attempt + 1) r (some (oracle attempt))).2.1 + 1,
         (retryAux oracle (attempt + 1) r (some (oracle attempt))).2.2
           + if 0 < r then 1 else 0) := by
  simp [retryAux, h]

theorem retryAux_calls_le (oracle : Nat → TranscribeResult) :
    ∀ (r attempt : Nat) (last : Option TranscribeResult),
      (retryAux oracle attempt r last).2.1 ≤ r := by
  intro r
  induction r with
  | zero =>
    intro attempt last
    simp [retryAux]
  | succ r ih =>
    intro attempt last
    cases h : (oracle attempt).success with
    | true =>
      rw [retryAux_succ_pos oracle attempt r last h]
      show 1 ≤ r + 1
      omega
    | false =>
      rw [retryAux_succ_neg oracle attempt r last h]
      have := ih (attempt + 1) (some (oracle attempt))
      simp only []
      omega

theorem retryAux_first_success (oracle : Nat → TranscribeResult) :
    ∀ (r k attempt : Nat) (last : Option TranscribeResult), k < r →
      (∀ j, j < k → (oracle (attempt + j)).success = false) →
      (oracle (attempt + k)).success = true →
      retryAux oracle attempt r last = (oracle (attempt + k), k + 1, k) := by
  intro r
  induction r with
  | zero =>
    intro k attempt last hk
    exact absurd hk (Nat.not_lt_zero k)
  | succ r ih =>
    intro k attempt last hk hfail hsucc
    cases k with
    | zero =>
      rw [Nat.add_zero] at hsucc
      rw [retryAux_succ_pos oracle attempt r last hsucc, Nat.add_zero]
    | succ k' =>
      have h0 : (oracle attempt).success = false := by
        have := hfail 0 (Nat.succ_pos k')
        rwa [Nat.add_zero] at this
      rw [retryAux_succ_neg oracle attempt r last h0]
      have hfail' : ∀ j, j < k' → (oracle (attempt + 1 + j)).success = false := by
        intro j hj
        have := hfail (j + 1) (by omega)
        rwa [show attempt + (j + 1) = attempt + 1 + j by omega] at this
      have hsucc' : (oracle (attempt + 1 + k')).success = true := by
        rwa [show attempt + (k' + 1) = attempt + 1 + k' by omega] at hsucc
      rw [ih k' (attempt + 1) (some (oracle attempt)) (by omega) hfail' hsucc']
      rw [if_pos (show 0 < r by omega)]
      rw [show attempt + 1 + k' = attempt + (k' + 1) by omega]

theorem retryAux_all_fail (oracle : Nat → TranscribeResult) :
    ∀ (r attempt : Nat) (last : Option TranscribeResult),
      (∀ j, j < r + 1 → (oracle (attempt + j)).success = false) →
      retryAux oracle attempt (r + 1) last = (oracle (attempt + r), r + 1, r) := by
  intro r
  induction r with
  | zero =>
    intro attempt last hfail
    have h0 : (oracle attempt).success = false := by
      have := hfail 0 Nat.one_pos
      rwa [Nat.add_zero] at this
    rw [retryAux_succ_neg oracle attempt 0 last h0]
    simp [retryAux]
  | succ r ih =>
    intro attempt last hfail
    have h0 : (oracle attempt).success = false := by
      have := hfail 0 (by omega)
      rwa [Nat.add_zero] at this
    rw [retryAux_succ_neg oracle attempt (r + 1) last h0]
    have hfail' : ∀ j, j < r + 1 → (oracle (attempt + 1 + j)).success = false := by
      intro j hj
      have := hfail (j + 1) (by omega)
      rwa [show attempt + (j + 1) = attempt + 1 + j by omega] at this
    rw [ih (attempt + 1) (some (oracle attempt)) hfail']
    rw [if_pos (Nat.succ_pos r)]
    rw [show attempt + 1 + r = attempt + (r + 1) by omega]

/-! The claims. -/

/-- C1 (counterexample): with document "foo bar", a live span recording
"bar" at start offset 4, and the cursor moved by the user to offset 0, a
differing realtime update "baz" does not delete the three span characters
at offset 4: the code computes the deletion count from the live cursor
(0 - 4, negative, so nothing is deleted) and then inserts at the cursor,
yielding "bazfoo bar" with the stale provisional text still present,
while the deletion the claim prescribes would have left "foo " outside
the new insertion. -/
theorem provisional_delete_cursor_moved_cex :
    (onRealtimeTextReceived ⟨⟨"foo bar".toList, 0⟩, "bar".toList, some 4⟩
        "baz".toList).buffer.text = "bazfoo bar".toList
    ∧ ("bazfoo bar".toList).length = ("foo bar".toList).length + 3
    ∧ specDeleteProvisional ⟨"foo bar".toList, 0⟩ 4 "bar".toList = "foo ".toList
    ∧ (onRealtimeTextReceived ⟨⟨"foo bar".toList, 0⟩, "bar".toList, some 4⟩
        "baz".toList).buffer.text
      ≠ "baz".toList ++ specDeleteProvisional ⟨"foo bar".toList, 0⟩ 4 "bar".toList := by
  decide

/-- C1 (amended): when a provisional span exists, the reconciler deletes
the characters between the recorded start offset and the live cursor:
the deletion is anchored at the recorded offset, but its extent is
cursor minus start offset, so it does depend on where the live cursor
is. When the cursor is at or beyond the start offset, exactly the range
from start to cursor is removed and every character outside it is
unchanged; when the cursor has moved before the start offset, nothing is
deleted and the stale span text stays in the document. In both cases the
span is cleared. -/
theorem provisional_delete_anchored_to_cursor (s : EditorState) (start : Nat)
    (hspan : s.realtimeStartPos = some start)
    (hct : s.currentText ≠ [])
    (hcl : s.buffer.cursor ≤ s.buffer.text.length) :
    (removeRealtimeText s).realtimeStartPos = none
    ∧ (start ≤ s.buffer.cursor →
        (removeRealtimeText s).buffer.text
          = s.buffer.text.take start ++ s.buffer.text.drop s.buffer.cursor
        ∧ (removeRealtimeText s).buffer.cursor = start)
    ∧ (s.buffer.cursor < start → (removeRealtimeText s).buffer = s.buffer) := by
  obtain ⟨⟨text, cursor⟩, ct, pos⟩ := s
  subst hspan
  dsimp only at hct hcl ⊢
  rcases le_or_lt start cursor with hle | hlt
  · rw [removeRealtime_ge text start cursor ct hct hle hcl]
    exact ⟨rfl, fun _ => ⟨rfl, rfl⟩, fun hc => absurd hc (by omega)⟩
  · rw [removeRealtime_lt text start cursor ct hct hlt]
    exact ⟨rfl, fun hc => absurd hc (by omega), fun _ => rfl⟩

/-- C1 (witness): evaluating the amended statement with document
"foo bar", span "bar" recorded at offset 4, cursor at 7. -/
theorem provisional_delete_anchored_to_cursor_witness :
    (removeRealtimeText ⟨⟨"foo bar".toList, 7⟩, "bar".toList, some 4⟩).realtimeStartPos = none
    ∧ (removeRealtimeText ⟨⟨"foo bar".toList, 7⟩, "bar".toList, some 4⟩).buffer.text
        = "foo ".toList
    ∧ (removeRealtimeText ⟨⟨"foo bar".toList, 7⟩, "bar".toList, some 4⟩).buffer.cursor = 4 := by
  have h := provisional_delete_anchored_to_cursor
    ⟨⟨"foo bar".toList, 7⟩, "bar".toList, some 4⟩ 4 rfl (by decide) (by decide)
  refine ⟨h.1, ?_, (h.2.1 (by decide)).2⟩
  have h2 := (h.2.1 (by decide)).1
  rw [h2]
  decide

/-- C2: on a document "foo " with the cursor at the end and no live span,
the realtime update "bar" followed by "baz" yields the document "foo baz"
with cursor 7, the provisional text "baz" and the span recorded at 4. -/
theorem realtime_replace_semantics :
    onRealtimeTextReceived
      (onRealtimeTextReceived ⟨⟨"foo ".toList, 4⟩, [], none⟩ "bar".toList)
      "baz".toList
      = ⟨⟨"foo baz".toList, 7⟩, "baz".toList, some 4⟩ := by
  decide

/-- C3 (counterexample): a state in which the span holds "uh" at recorded
offset 4 in document "foo uh" but the user has moved the cursor to 0 (the
state reached from document "foo " by on_realtime("uh") followed by a
cursor move). An empty final sentence then removes nothing: the deletion
count cursor - start is negative, so the stale "uh" stays in the document
instead of being removed, refuting the claim for this span-holding
state. -/
theorem empty_final_stale_span_cex :
    (handleFullSentence ⟨⟨"foo uh".toList, 0⟩, "uh".toList, some 4⟩ []).buffer.text
      = "foo uh".toList
    ∧ (handleFullSentence ⟨⟨"foo uh".toList, 0⟩, "uh".toList, some 4⟩ []).realtimeStartPos
      = none
    ∧ (handleFullSentence ⟨⟨"foo uh".toList, 0⟩, "uh".toList, some 4⟩ []).buffer.text
      ≠ "foo ".toList := by
  decide

/-- C3 (amended): when the provisional span was created by a realtime
update on a span-free editor and the cursor has not moved since, a final
sentence whose text is empty or whitespace-only removes exactly what the
update inserted, inserts nothing, restores the buffer (text and cursor)
to its previous state and clears the span; but not in every span-holding
state: when the user has moved the cursor before the recorded start
offset, the blank final removes nothing — the stale provisional text
stays in the document — and only the span and the current text are
cleared, the buffer being left untouched. -/
theorem empty_final_cancellation (b0 : TextBuffer) (t wsText : List Char)
    (text : List Char) (start cursor : Nat) (ct : List Char)
    (hcl : b0.cursor ≤ b0.text.length)
    (ht : pyStrip t ≠ [])
    (hws : pyStrip wsText = [])
    (hct : ct ≠ [])
    (hmoved : cursor < start) :
    handleFullSentence (onRealtimeTextReceived ⟨b0, [], none⟩ t) wsText = ⟨b0, [], none⟩
    ∧ handleFullSentence ⟨⟨text, cursor⟩, ct, some start⟩ wsText
        = ⟨⟨text, cursor⟩, [], none⟩ := by
  constructor
  · rw [onRealtime_fresh b0 t ht]
    unfold handleFullSentence
    rw [if_neg (fun hne => hne hws)]
    unfold onRealtimeTextReceived
    rw [if_pos (show ([] : List Char) ≠ pyStrip t from fun hc => ht hc.symm)]
    rw [removeRealtime_after_insert b0 (pyStrip t) (glueSpaced b0 (pyStrip t)) ht hcl]
    rfl
  · unfold handleFullSentence
    rw [if_neg (fun hne => hne hws)]
    unfold onRealtimeTextReceived
    rw [if_pos (show ([] : List Char) ≠ ct from fun hc => hct hc.symm)]
    rw [removeRealtime_lt text start cursor ct hct hmoved]
    rfl

/-- C3 (witness): the clean cancellation on "foo " with cursor at the end
and realtime "uh", and the moved-cursor case on "foo uh" with the span
recorded at 4 and the cursor moved to 1, both under a whitespace-only
final. -/
theorem empty_final_cancellation_witness :
    handleFullSentence
      (onRealtimeTextReceived ⟨⟨"foo ".toList, 4⟩, [], none⟩ "uh".toList) [' ']
      = ⟨⟨"foo ".toList, 4⟩, [], none⟩
    ∧ handleFullSentence ⟨⟨"foo uh".toList, 1⟩, "uh".toList, some 4⟩ [' ']
      = ⟨⟨"foo uh".toList, 1⟩, [], none⟩ :=
  empty_final_cancellation ⟨"foo ".toList, 4⟩ "uh".toList [' ']
    "foo uh".toList 4 1 "uh".toList
    (by decide) (by decide) (by decide) (by decide) (by decide)

/-- C4: for every metadata value and its serialized bytes (the json layer
is the external json library, abstracted as any dumps and parse pair that
invert each other) and every audio byte string, decoding the encoded wire
message recovers the metadata and the audio bytes verbatim. -/
theorem wire_framing_roundtrip {M : Type} (dumps : M → List Nat)
    (parse : List Nat → Option M) (hinv : ∀ m, parse (dumps m) = some m)
    (m : M) (audio : List Nat) (hlen : (dumps m).length < 2 ^ 32) :
    decodeWire parse (encodeWire (dumps m) audio) = some (m, audio) := by
  rw [encodeWire_eq, decodeWire_frame parse (dumps m) audio hlen, hinv m]
  rfl

/-- C4 (witness): the round trip evaluated on a concrete json layer,
metadata value 3 and audio bytes. -/
theorem wire_framing_roundtrip_witness :
    decodeWire natParse (encodeWire (natDumps 3) [1, 2]) = some (3, [1, 2]) :=
  wire_framing_roundtrip natDumps natParse
    (fun m => by simp [natParse, natDumps]) 3 [1, 2] (by decide)

/-- C5 (counterexample): truncating a valid 8-byte frame (metadata bytes
of an empty json object, two audio bytes) to its first 6 bytes keeps the
header and the whole metadata and drops only audio, and decoding this
strict prefix succeeds instead of failing: the frame carries no audio
length, so audio truncation is undetectable. -/
theorem wire_decode_truncated_cex :
    6 < (encodeWire [123, 125] [9, 9]).length
    ∧ decodeWire stubJsonParse ((encodeWire [123, 125] [9, 9]).take 6) = some (42, []) := by
  decide

/-- C5 (amended): decoding a truncated frame fails when the truncation
cuts into the 4-byte header or the metadata bytes (the metadata slice is
then a strict truncation, which the json layer rejects), but a prefix
that retains the header and the full metadata and drops only audio bytes
decodes successfully, returning the truncated audio verbatim. -/
theorem wire_decode_truncated {M : Type} (parse : List Nat → Option M)
    (mb audio : List Nat) (m : M)
    (hlen : mb.length < 2 ^ 32) (hmb : mb ≠ [])
    (hok : parse mb = some m)
    (hshort : ∀ l : List Nat, l.length < mb.length → parse l = none)
    (n : Nat) :
    (n < 4 + mb.length →
      decodeWire parse ((encodeWire mb audio).take n) = none)
    ∧ (4 + mb.length ≤ n →
      decodeWire parse ((encodeWire mb audio).take n)
        = some (m, audio.take (n - (4 + mb.length)))) := by
  have hmbpos : 0 < mb.length := List.length_pos.mpr hmb
  constructor
  · intro hn
    rcases Nat.lt_or_ge n 4 with h4 | h4
    · rw [encode_take_tiny mb audio n h4]
      unfold decodeWire
      have hdrop : ((packU32LE mb.length).take n).drop 4 = [] := by
        apply List.drop_eq_nil_of_le
        rw [List.length_take]
        omega
      rw [hdrop, List.take_nil, hshort [] hmbpos]
    · rw [encode_take_small mb audio n h4 hn]
      unfold decodeWire
      rw [pack_take4, intFromBytes_pack _ hlen, pack_drop4]
      have hslice : (mb.take (n - 4)).take mb.length = mb.take (n - 4) := by
        rw [List.take_take]
        congr 1
        omega
      rw [hslice]
      rw [hshort (mb.take (n - 4)) (by rw [List.length_take]; omega)]
  · intro hn
    rw [encode_take_large mb audio n hn]
    rw [decodeWire_frame parse mb (audio.take (n - (4 + mb.length))) hlen, hok]
    rfl

/-- C5 (witness): evaluating the amended statement on the concrete frame,
at a cut inside the metadata (n = 5, failure) and at a cut dropping only
audio (n = 7, success with truncated audio). -/
theorem wire_decode_truncated_witness :
    decodeWire stubJsonParse ((encodeWire [123, 125] [9, 9]).take 5) = none
    ∧ decodeWire stubJsonParse ((encodeWire [123, 125] [9, 9]).take 7) = some (42, [9]) := by
  have hshort : ∀ l : List Nat, l.length < ([123, 125] : List Nat).length →
      stubJsonParse l = none := by
    intro l hl
    unfold stubJsonParse
    rw [if_neg]
    intro hcontra
    rw [hcontra] at hl
    simp at hl
  constructor
  · exact (wire_decode_truncated stubJsonParse [123, 125] [9, 9] 42
      (by decide) (by decide) (by decide) hshort 5).1 (by decide)
  · exact (wire_decode_truncated stubJsonParse [123, 125] [9, 9] 42
      (by decide) (by decide) (by decide) hshort 7).2 (by decide)

/-- C6 (counterexample): starting from a fresh client, when the control
channel opens but the data channel fails, connect reports failure yet the
already-opened control channel is left open and the data channel absent:
the caller observes exactly the half-connected state the claim rules out,
because the except branch only clears is_connected and re-raises without
closing anything. -/
theorem connect_half_connected_cex :
    (connect true false initialClient).1 = false
    ∧ (connect true false initialClient).2.controlWs = some true
    ∧ (connect true false initialClient).2.dataWs = none
    ∧ (connect true false initialClient).2.isConnected = false := by
  decide

/-- C6 (amended): connect succeeds exactly when both channel opens
succeed; on partial failure with the control channel up and the data
channel down it reports failure and clears is_connected, but it does not
tear down the control channel: the opened control channel is retained and
the data channel is left as it was. -/
theorem connect_partial_failure_keeps_control (s : ClientState) (cok dok : Bool) :
    ((connect cok dok s).1 = (cok && dok))
    ∧ (cok = true → dok = false →
        (connect cok dok s).2.controlWs = some true
        ∧ (connect cok dok s).2.isConnected = false
        ∧ (connect cok dok s).2.dataWs = s.dataWs) := by
  cases cok <;> cases dok <;> simp [connect]

/-- C6 (witness): the amended statement evaluated on the fresh client for
the partial-failure outcome. -/
theorem connect_partial_failure_keeps_control_witness :
    (connect true false initialClient).1 = false
    ∧ (connect true false initialClient).2.controlWs = some true := by
  have h := connect_partial_failure_keeps_control initialClient true false
  exact ⟨h.1, (h.2 rfl rfl).1⟩

/-- C7 (counterexample): with the data channel closed, the very first
send_audio_chunk call does not fail: the websocket exception is swallowed
by the bare except, so nothing is surfaced to the caller even once. -/
theorem send_audio_closed_first_call_cex :
    sendAudioChunk closedDataClient = ⟨false, false⟩ := by
  decide

/-- C7 (amended): send_audio_chunk never raises to its caller in any
state: an absent data channel returns early before encoding, and a send
on a closed channel has its exception swallowed; in both of those cases
no frame is delivered. The failure is surfaced zero times, not once. -/
theorem send_audio_never_raises (s : ClientState) :
    (sendAudioChunk s).raised = false
    ∧ (s.dataWs ≠ some true → (sendAudioChunk s).delivered = false) := by
  constructor
  · unfold sendAudioChunk
    rcases s.dataWs with _ | b
    · rfl
    · cases b <;> rfl
  · intro h
    unfold sendAudioChunk
    rcases hd : s.dataWs with _ | b
    · rfl
    · cases b
      · rfl
      · exact absurd hd h

/-- C7 (witness): the amended statement evaluated on the client with the
closed data channel. -/
theorem send_audio_never_raises_witness :
    (sendAudioChunk closedDataClient).raised = false
    ∧ (sendAudioChunk closedDataClient).delivered = false := by
  have h := send_audio_never_raises closedDataClient
  exact ⟨h.1, h.2 (by decide)⟩

/-- C8 (counterexample): from the Listening state, start_recording is not
a no-op: the guard only checks is_connected, so the call acquires a
second capture handle and issues a second start_recording control
command. -/
theorem start_from_listening_not_noop_cex :
    startRecording listeningClient ≠ listeningClient
    ∧ (startRecording listeningClient).handlesAcquired = 2
    ∧ (startRecording listeningClient).sentControl
        = [ControlCommand.startRec, ControlCommand.startRec] := by
  decide

/-- C8 (amended): pause, resume and stop called from an invalid source
state are no-ops that change nothing, as the claim says; start, however,
is guarded only on connectivity: it is a no-op when disconnected, but
called on a connected client with a live control channel it acquires a
fresh capture handle and issues a start_recording command even when the
client is already Listening or Paused. -/
theorem invalid_transitions_guarded_except_start (s : ClientState) :
    (¬(s.isRecording = true ∧ s.isPaused = false) → pauseRecording s = s)
    ∧ (¬(s.isRecording = true ∧ s.isPaused = true) → resumeRecording s = s)
    ∧ (s.isRecording = false → stopRecording s = s)
    ∧ (s.isConnected = false → startRecording s = s)
    ∧ (s.isConnected = true → s.controlWs = some true →
        (startRecording s).handlesAcquired = s.handlesAcquired + 1
        ∧ (startRecording s).sentControl = s.sentControl ++ [ControlCommand.startRec]) := by
  refine ⟨?_, ?_, ?_, ?_, ?_⟩
  · intro h
    unfold pauseRecording
    rcases hr : s.isRecording <;> rcases hp : s.isPaused <;> simp_all
  · intro h
    unfold resumeRecording
    rcases hr : s.isRecording <;> rcases hp : s.isPaused <;> simp_all
  · intro h
    unfold stopRecording
    rw [h]
    rfl
  · intro h
    unfold startRecording
    rw [h]
    rfl
  · intro hc hw
    unfold startRecording
    rw [hc, hw]
    exact ⟨rfl, rfl⟩

/-- C8 (witness): the amended statement evaluated on concrete states: on
the fresh (Idle, disconnected) client pause, resume, stop and start all
leave the state untouched, and on the connected Listening client start
issues a second command. -/
theorem invalid_transitions_guarded_except_start_witness :
    pauseRecording initialClient = initialClient
    ∧ resumeRecording initialClient = initialClient
    ∧ stopRecording initialClient = initialClient
    ∧ startRecording initialClient = initialClient
    ∧ (startRecording listeningClient).handlesAcquired = 2 := by
  refine ⟨?_, ?_, ?_, ?_, ?_⟩
  · exact (invalid_transitions_guarded_except_start initialClient).1 (by decide)
  · exact (invalid_transitions_guarded_except_start initialClient).2.1 (by decide)
  · exact (invalid_transitions_guarded_except_start initialClient).2.2.1 (by decide)
  · exact (invalid_transitions_guarded_except_start initialClient).2.2.2.1 (by decide)
  · exact ((invalid_transitions_guarded_except_start listeningClient).2.2.2.2
      rfl rfl).1

/-- C9: for every retry budget N and every sequence of outcomes of the
underlying transcribe calls, the wrapper makes at most N + 1 calls; if
the first success is at attempt k it returns that result immediately
after k + 1 calls with one fixed delay between each pair of consecutive
failed attempts (k sleeps); and if every attempt fails it returns the
result of the last attempt after N + 1 calls and N sleeps. -/
theorem transcribe_retry_contract (oracle : Nat → TranscribeResult) (N : Nat) :
    (transcribeWithRetry oracle N).2.1 ≤ N + 1
    ∧ (∀ k, k ≤ N → (∀ j, j < k → (oracle j).success = false) →
        (oracle k).success = true →
        transcribeWithRetry oracle N = (oracle k, k + 1, k))
    ∧ ((∀ j, j ≤ N → (oracle j).success = false) →
        transcribeWithRetry oracle N = (oracle N, N + 1, N)) := by
  refine ⟨retryAux_calls_le oracle (N + 1) 0 none, ?_, ?_⟩
  · intro k hk hfail hsucc
    have h := retryAux_first_success oracle (N + 1) k 0 none (by omega)
      (fun j hj => by simpa using hfail j hj) (by simpa using hsucc)
    simpa [transcribeWithRetry] using h
  · intro hfail
    have h := retryAux_all_fail oracle N 0 none
      (fun j hj => by simpa using hfail j (by omega))
    simpa [transcribeWithRetry] using h

/-- C9 (witness): the contract evaluated with budget 2 on an oracle that
fails at attempt 0 and succeeds at attempt 1: the wrapper returns the
attempt-1 result after 2 calls and 1 sleep. -/
theorem transcribe_retry_contract_witness :
    transcribeWithRetry (fun k => ⟨k == 1, [], none⟩) 2
      = (⟨true, [], none⟩, 2, 1) :=
  (transcribe_retry_contract (fun k => ⟨k == 1, [], none⟩) 2).2.1 1
    (by decide) (by decide) (by decide)

/-- C10: the server broadcasts no blank fullSentence: when the
preprocessed final text (left-stripped, a leading ellipsis removed, first
character uppercased) is whitespace-only, process_final_text enqueues
nothing, and whenever it does enqueue a message the carried text is
neither empty nor whitespace-only. -/
theorem fullSentence_never_blank (text : List Char) :
    (pyStrip (preprocessText text) = [] → processFinalText text = none)
    ∧ (∀ msg, processFinalText text = some msg → pyStrip msg ≠ [] ∧ msg ≠ []) := by
  constructor
  · intro h
    unfold processFinalText
    rw [if_pos h]
  · intro msg h
    unfold processFinalText at h
    by_cases hb : pyStrip (preprocessText text) = []
    · rw [if_pos hb] at h
      cases h
    · rw [if_neg hb] at h
      injection h with h2
      constructor
      · rw [← h2]
        exact hb
      · intro hnil
        apply hb
        rw [← h2] at hnil
        rw [hnil]
        rfl

/-- C10 (witness): the guard evaluated on a concrete final text with
leading whitespace and an ellipsis. -/
theorem fullSentence_never_blank_witness :
    processFinalText "  ...hello".toList = some "Hello".toList
    ∧ pyStrip "Hello".toList ≠ [] :=
  ⟨by decide, ((fullSentence_never_blank ("  ...hello".toList)).2
    "Hello".toList (by decide)).1⟩

end RealtimeSTT
